import Mathlib

/-
Verification development for the laboratory record-keeping toolkit
(protocol manager, sample tracker, lab notebook).

The Python sources are embedded shallowly:
  - JSON documents become the mutual inductive type JValue / JArr / JObj;
    a protocol record is a JObj (an ordered key-value sequence, mirroring
    the insertion-ordered Python dict).
  - The on-disk stores (one file per record, keyed by id, and the shared
    samples ledger) become association lists; every operation is the full
    read-modify-write cycle of the source.
  - datetime.now() calls become explicit timestamp parameters (an injected
    clock); print output is dropped; a Python operation that can raise or
    return None becomes an Option.
  - Numeric quantities are embedded as Int (exact Python integer
    arithmetic); str.lower is embedded per character over code points
    (ASCII-faithful).
-/

/- ===================== JSON document model ===================== -/

mutual

inductive JValue where
  | null : JValue
  | int (n : Int) : JValue
  | str (s : String) : JValue
  | arr (xs : JArr) : JValue
  | obj (kvs : JObj) : JValue

inductive JArr where
  | nil : JArr
  | cons (hd : JValue) (tl : JArr) : JArr

inductive JObj where
  | nil : JObj
  | cons (key : String) (val : JValue) (tl : JObj) : JObj

end

/-- Lookup of a key in a JSON object, first binding wins (Python dicts have
unique keys, so this is exact). Models d[k] / d.get(k). -/
def oget : JObj → String → Option JValue
  | .nil, _ => none
  | .cons k' v t, k => if k' == k then some v else oget t k

/-- Membership test for a key, models the Python test k in d. -/
def ohas : JObj → String → Bool
  | .nil, _ => false
  | .cons k' _ t, k => (k' == k) || ohas t k

/-- Assignment d[k] = v on an insertion-ordered dict: replaces the value in
place when the key exists, appends the binding at the end otherwise. -/
def oset : JObj → String → JValue → JObj
  | .nil, k, v => .cons k v .nil
  | .cons k' v' t, k, v => if k' == k then .cons k v t else .cons k' v' (oset t k v)

/-- Association-list lookup used for the per-id record stores. -/
def aget {α : Type} : List (String × α) → String → Option α
  | [], _ => none
  | kv :: t, k => if kv.1 == k then some kv.2 else aget t k

/-- Association-list write used for the per-id record stores: saving a
document under an id overwrites any record already stored at that id. -/
def aset {α : Type} : List (String × α) → String → α → List (String × α)
  | [], k, v => [(k, v)]
  | kv :: t, k, v => if kv.1 == k then (k, v) :: t else kv :: aset t k v

/- ===================== string helpers ===================== -/

/-- Py-style str.lower, per character over code points. -/
def pyLower (s : String) : String := String.mk (s.data.map Char.toLower)

/-- The protocol id slug: name.lower().replace(space, underscore). -/
def pySlug (s : String) : String :=
  String.mk (s.data.map (fun c => if c = ' ' then '_' else Char.toLower c))

/-- Prefix test on character lists. -/
def chStarts : List Char → List Char → Bool
  | [], _ => true
  | _ :: _, [] => false
  | a :: as, b :: bs => (a == b) && chStarts as bs

/-- Infix test on character lists. -/
def chContains (n : List Char) : List Char → Bool
  | [] => chStarts n []
  | b :: bs => chStarts n (b :: bs) || chContains n bs

/-- Py-style substring containment: needle in haystack. -/
def pyIn (needle haystack : String) : Bool := chContains needle.data haystack.data

/-- Join a list of strings with single spaces, models str.join. -/
def joinSpace (l : List String) : String := String.intercalate " " l

/- ===================== canonical JSON serialization ===================== -/

/-- Ordered insertion of one binding, by key, used to model sort_keys=True. -/
def insObj (k : String) (v : JValue) : JObj → JObj
  | .nil => .cons k v .nil
  | .cons k' v' t =>
    match compare k k' with
    | .gt => .cons k' v' (insObj k v t)
    | _ => .cons k v (.cons k' v' t)

/-- Insertion sort of the bindings of a JSON object by key. -/
def sortObj : JObj → JObj
  | .nil => .nil
  | .cons k v t => insObj k v (sortObj t)

mutual

/-- Canonicalization behind json.dumps(x, sort_keys=True): object keys are
sorted at every nesting level, array order is preserved. -/
def jcanon : JValue → JValue
  | .null => .null
  | .int n => .int n
  | .str s => .str s
  | .arr xs => .arr (jcanonArr xs)
  | .obj kvs => .obj (sortObj (jcanonObj kvs))

def jcanonArr : JArr → JArr
  | .nil => .nil
  | .cons h t => .cons (jcanon h) (jcanonArr t)

def jcanonObj : JObj → JObj
  | .nil => .nil
  | .cons k v t => .cons k (jcanon v) (jcanonObj t)

end

/-- String escaping of json.dumps, restricted to the quote and backslash
characters (control and non-ASCII escapes are not exercised here). -/
def jescape (s : String) : String :=
  String.mk (s.data.foldr
    (fun c acc => (if c = '"' || c = '\\' then ['\\', c] else [c]) ++ acc) [])

/-- Serialization of a JSON string literal. -/
def qstr (s : String) : String := "\"" ++ jescape s ++ "\""

mutual

/-- Plain JSON serialization with the default json.dumps separators. -/
def jdump : JValue → String
  | .null => "null"
  | .int n => toString n
  | .str s => qstr s
  | .arr xs => "[" ++ jdumpArr xs ++ "]"
  | .obj kvs => "\x7b" ++ jdumpObj kvs ++ "\x7d"

def jdumpArr : JArr → String
  | .nil => ""
  | .cons h .nil => jdump h
  | .cons h (.cons h2 t) => jdump h ++ ", " ++ jdumpArr (.cons h2 t)

def jdumpObj : JObj → String
  | .nil => ""
  | .cons k v .nil => qstr k ++ ": " ++ jdump v
  | .cons k v (.cons k2 v2 t) => qstr k ++ ": " ++ jdump v ++ ", " ++ jdumpObj (.cons k2 v2 t)

end

/- ===================== protocol manager ===================== -/

/-- ProtocolStore: one JSON document per protocol id (one file per record). -/
abbrev ProtocolStore := List (String × JObj)

/-- Typed string read of a field, models an access that Python follows with
a string operation (a non-string value would raise there). -/
def getStr (p : JObj) (k : String) : Option String :=
  match oget p k with
  | some (.str s) => some s
  | _ => none

/-- Checksum of ProtocolManager._calculate_checksum: the canonical
serialization (sort_keys=True) of exactly the name, steps and materials
fields, materials defaulting to the empty list. The MD5 step is a fixed
deterministic function of this payload, so digests are modelled by the
payload string itself: payload equality and digest equality coincide for
every property stated here. Returns none when name or steps is missing
(KeyError in the source). -/
def calculate_checksum (p : JObj) : Option String :=
  match oget p "name", oget p "steps" with
  | some n, some s =>
    some (jdump (jcanon (.obj (.cons "name" n (.cons "steps" s
      (.cons "materials" ((oget p "materials").getD (.arr .nil)) .nil))))))
  | _, _ => none

/-- Field application loop of update_protocol: each binding of the changes
dict is applied only when its key is already a top-level field. -/
def apply_updates (p : JObj) : JObj → JObj
  | .nil => p
  | .cons k v t => apply_updates (if ohas p k then oset p k v else p) t

/-- ProtocolManager.load_protocol: read the record stored under an id. -/
def load_protocol (store : ProtocolStore) (pid : String) : Option JObj :=
  aget store pid

/-- ProtocolManager.create_protocol. The two clock reads become the now
(isoformat) and ts (second-resolution id stamp) parameters; the or-defaults
of the optional arguments become Option.getD. -/
def create_protocol (store : ProtocolStore) (name description : String)
    (steps : JValue) (materials notes tags : Option JValue)
    (now ts : String) : ProtocolStore × String :=
  let protocol_id := pySlug name ++ "_" ++ ts
  let protocol : JObj :=
    .cons "id" (.str protocol_id) (.cons "name" (.str name)
    (.cons "description" (.str description) (.cons "created" (.str now)
    (.cons "version" (.int 1) (.cons "steps" steps
    (.cons "materials" (materials.getD (.arr .nil))
    (.cons "notes" (notes.getD (.str "")) (.cons "tags" (tags.getD (.arr .nil))
    (.cons "checksum" (.str "") .nil)))))))))
  let protocol := oset protocol "checksum"
    (.str ((calculate_checksum protocol).getD ""))
  (aset store protocol_id protocol, protocol_id)

/-- ProtocolManager.update_protocol: load, apply the changes that hit
existing fields, increment version, stamp modified, recompute the checksum,
mint the new id from the (possibly updated) name and the new version, and
save as a new record. Returns none when the id is unknown, or on the source
paths that raise (version not an integer when incremented, name not a
string when slugged). -/
def update_protocol (store : ProtocolStore) (pid : String) (updates : JObj)
    (now ts : String) : Option (ProtocolStore × String) :=
  match load_protocol store pid with
  | none => none
  | some p0 =>
    let p1 := apply_updates p0 updates
    match oget p1 "version" with
    | some (.int v) =>
      let p2 := oset p1 "version" (.int (v + 1))
      let p3 := oset p2 "modified" (.str now)
      match calculate_checksum p3 with
      | none => none
      | some cs =>
        let p4 := oset p3 "checksum" (.str cs)
        match getStr p4 "name" with
        | none => none
        | some nm =>
          let new_id := pySlug nm ++ "_v" ++ toString (v + 1) ++ "_" ++ ts
          let p5 := oset p4 "id" (.str new_id)
          some (aset store new_id p5, new_id)
    | _ => none

/-- Conversion of a JSON array of strings to a string list; none models the
TypeError a non-string element raises inside str.join. -/
def strListArr : JArr → Option (List String)
  | .nil => some []
  | .cons (.str s) t => (strListArr t).map (fun l => s :: l)
  | .cons _ _ => none

/-- Conversion of a JSON value expected to be an array of strings. -/
def strList : JValue → Option (List String)
  | .arr xs => strListArr xs
  | _ => none

/-- Searchable text of one protocol in search_protocols: lowercased name,
lowercased description and the space-joined raw tags (the source does not
lowercase the tags). none models the access errors of a malformed record. -/
def protocol_searchable (p : JObj) : Option String := do
  let n ← getStr p "name"
  let d ← getStr p "description"
  let ts ← strList ((oget p "tags").getD (.arr .nil))
  pure (pyLower n ++ " " ++ pyLower d ++ " " ++ joinSpace ts)

/-- One entry of the search_protocols result list. -/
structure ProtoMatch where
  id : JValue
  name : JValue
  description : JValue

/-- Result entry built for a matching protocol. -/
def protocol_summary (p : JObj) : Option ProtoMatch := do
  let i ← oget p "id"
  let n ← oget p "name"
  let d ← oget p "description"
  pure ⟨i, n, d⟩

/-- ProtocolManager.search_protocols over the list of stored records: the
keyword is lowercased once, and a record matches when that lowercased
keyword is a substring of its searchable text. -/
def search_protocols (recs : List JObj) (keyword : String) :
    Option (List ProtoMatch) :=
  match recs with
  | [] => some []
  | p :: rest => do
    let s ← protocol_searchable p
    let ms ← search_protocols rest keyword
    if pyIn (pyLower keyword) s then do
      let m ← protocol_summary p
      pure (m :: ms)
    else
      pure ms

/- ===================== sample tracker ===================== -/

/-- One usage ledger entry of SampleTracker.use_sample. -/
structure Usage where
  date : String
  amount : Int
  unit : String
  used_by : String
  experiment_id : Option String
  notes : String

/-- One sample record of the shared inventory ledger, as built by
SampleTracker.add_sample. -/
structure Sample where
  sample_id : String
  stype : String
  description : String
  location : String
  quantity : Int
  unit : String
  concentration : Option String
  batch : Option String
  source : String
  notes : String
  added : String
  status : String
  usage_history : List Usage

/-- Outcome reported by use_sample (the source prints one message per
branch and returns nothing). -/
inductive UseOutcome where
  | notFound : UseOutcome
  | unitMismatch : UseOutcome
  | ok (remaining : Int) : UseOutcome

/-- SampleTracker.get_sample: first record with the given sample_id. -/
def get_sample (inv : List Sample) (sid : String) : Option Sample :=
  inv.find? (fun s => s.sample_id == sid)

/-- SampleTracker.add_sample: reject an already-present sample_id with no
change to the inventory, otherwise append the new record with status
Available and an empty ledger. -/
def add_sample (inv : List Sample) (sample_id stype description location : String)
    (quantity : Int) (unit : String) (concentration batch : Option String)
    (source notes : Option String) (added : String) :
    List Sample × Option String :=
  if (inv.map Sample.sample_id).contains sample_id then
    (inv, none)
  else
    (inv ++ [{ sample_id := sample_id, stype := stype, description := description,
               location := location, quantity := quantity, unit := unit,
               concentration := concentration, batch := batch,
               source := source.getD "", notes := notes.getD "",
               added := added, status := "Available", usage_history := [] }],
     some sample_id)

/-- Inner loop of use_sample: update the first record with the matching id
(set the new quantity, append the usage entry, switch the status to
Depleted when the new quantity is at most zero) and keep the rest. -/
def apply_usage (inv : List Sample) (sid : String) (newQ : Int) (u : Usage) :
    List Sample :=
  match inv with
  | [] => []
  | s :: rest =>
    if s.sample_id == sid then
      { s with quantity := newQ,
               usage_history := s.usage_history ++ [u],
               status := if newQ ≤ 0 then "Depleted" else s.status } :: rest
    else
      s :: apply_usage rest sid newQ u

/-- SampleTracker.use_sample: not-found and unit-mismatch calls leave the
inventory untouched; a matching-unit call decrements the quantity by the
amount used (no clamping) and records the usage entry. The clock read for
the entry date becomes the date parameter. -/
def use_sample (inv : List Sample) (sample_id : String) (amount_used : Int)
    (unit used_by : String) (experiment_id notes : Option String)
    (date : String) : List Sample × UseOutcome :=
  match get_sample inv sample_id with
  | none => (inv, .notFound)
  | some sample =>
    if sample.unit == unit then
      let newQ := sample.quantity - amount_used
      (apply_usage inv sample_id newQ
        { date := date, amount := amount_used, unit := unit,
          used_by := used_by, experiment_id := experiment_id,
          notes := notes.getD "" },
       .ok newQ)
    else
      (inv, .unitMismatch)

/-- Sequence of use_sample calls on one sample id with a fixed unit and
user (dates, experiment ids and notes play no role in the claims and are
fixed to their defaults). -/
def use_seq (inv : List Sample) (sid : String) (amounts : List Int)
    (unit used_by : String) : List Sample :=
  amounts.foldl (fun i a => (use_sample i sid a unit used_by none none "").1) inv

/-- Effect of one matching-unit use_sample call on the sample itself, used
to state the fold over a call sequence. -/
def sample_step (unit used_by : String) (s : Sample) (a : Int) : Sample :=
  { s with quantity := s.quantity - a,
           usage_history := s.usage_history ++
             [{ date := "", amount := a, unit := unit, used_by := used_by,
                experiment_id := none, notes := "" }],
           status := if s.quantity - a ≤ 0 then "Depleted" else s.status }

/- ===================== lab notebook ===================== -/

/-- One timestamped observation entry. -/
structure Observation where
  timestamp : String
  text : String

/-- One experiment record of LabNotebook, as built by create_experiment.
The results dict is an insertion-ordered string association list; an
attachment is the triple of its type, file and added fields. -/
structure Experiment where
  id : String
  title : String
  protocol_id : Option String
  objective : String
  hypothesis : String
  materials : List String
  tags : List String
  created : String
  status : String
  observations : List Observation
  results : List (String × String)
  conclusions : String
  completed : Option String
  attachments : List (String × String × String)

/-- ExperimentStore: one record per experiment id. -/
abbrev ExperimentStore := List (String × Experiment)

/-- Record built by LabNotebook.create_experiment: status starts at
In Progress with empty observations, results and conclusions. -/
def new_experiment (title : String) (protocol_id objective hypothesis : Option String)
    (materials tags : Option (List String)) (now ts : String) : Experiment :=
  { id := "EXP_" ++ ts, title := title, protocol_id := protocol_id,
    objective := objective.getD "", hypothesis := hypothesis.getD "",
    materials := materials.getD [], tags := tags.getD [],
    created := now, status := "In Progress", observations := [],
    results := [], conclusions := "", completed := none, attachments := [] }

/-- LabNotebook.create_experiment: build the record and save it under its
id. -/
def create_experiment (store : ExperimentStore) (title : String)
    (protocol_id objective hypothesis : Option String)
    (materials tags : Option (List String)) (now ts : String) :
    ExperimentStore × String :=
  let e := new_experiment title protocol_id objective hypothesis materials tags now ts
  (aset store e.id e, e.id)

/-- LabNotebook.load_experiment. -/
def load_experiment (store : ExperimentStore) (eid : String) : Option Experiment :=
  aget store eid

/-- LabNotebook.add_observation: append a timestamped entry and save the
record back under its own id field; a missing id leaves the store as is. -/
def add_observation (store : ExperimentStore) (eid : String) (text : String)
    (tstamp : Option String) (now : String) : ExperimentStore :=
  match load_experiment store eid with
  | none => store
  | some e =>
    aset store e.id
      { e with observations := e.observations ++ [{ timestamp := tstamp.getD now, text := text }] }

/-- LabNotebook.add_results: merge the results data into the results dict
and optionally append a data attachment; a missing id leaves the store as
is. -/
def add_results (store : ExperimentStore) (eid : String)
    (results_data : List (String × String)) (data_file : Option String)
    (now : String) : ExperimentStore :=
  match load_experiment store eid with
  | none => store
  | some e =>
    aset store e.id
      { e with results := results_data.foldl (fun r kv => aset r kv.1 kv.2) e.results,
               attachments := match data_file with
                 | some f => e.attachments ++ [("data", f, now)]
                 | none => e.attachments }

/-- LabNotebook.complete_experiment: set status Completed, store the
conclusions and stamp the completed time; a missing id leaves the store as
is. -/
def complete_experiment (store : ExperimentStore) (eid : String)
    (conclusions : String) (now : String) : ExperimentStore :=
  match load_experiment store eid with
  | none => store
  | some e =>
    aset store e.id
      { e with status := "Completed", conclusions := conclusions, completed := some now }

/-- Searchable text of one experiment in search_experiments: lowercased
title, lowercased objective and the space-joined raw tags (the source does
not lowercase the tags). -/
def experiment_searchable (e : Experiment) : String :=
  pyLower e.title ++ " " ++ pyLower e.objective ++ " " ++ joinSpace e.tags

/-- One entry of the search_experiments result list. -/
structure ExpMatch where
  id : String
  title : String
  status : String

/-- LabNotebook.search_experiments over the stored records: the keyword is
lowercased once and matched as a substring of the searchable text; matches
are reported in record order. -/
def search_experiments (recs : List Experiment) (keyword : String) :
    List ExpMatch :=
  (recs.filter (fun e => pyIn (pyLower keyword) (experiment_searchable e))).map
    (fun e => { id := e.id, title := e.title, status := e.status })

/- ===================== concrete fixtures ===================== -/

/-- Inventory holding one sample of 1 mg, for the C1 counterexample. -/
def c1_inv0 : List Sample :=
  (add_sample [] "S1" "DNA" "d" "L" 1 "mg" none none none none "t0").1

/-- The C1 counterexample run: overdraw by 2 mg, then a negative usage
amount of -2 mg restores the quantity while the status stays Depleted. -/
def c1_inv1 : List Sample := use_seq c1_inv0 "S1" [2, -2] "mg" "me"

/-- One stored sample with unit mg, for the C2 witness. -/
def c2_s : Sample :=
  { sample_id := "S2", stype := "Protein", description := "d", location := "L",
    quantity := 5, unit := "mg", concentration := none, batch := none,
    source := "", notes := "", added := "t0", status := "Available",
    usage_history := [] }

/-- Inventory for the C2 witness. -/
def c2_inv : List Sample := [c2_s]

/-- Protocol store with one created record, for the C3 theorems. -/
def c3_store : ProtocolStore :=
  (create_protocol [] "Alpha" "d" (.arr .nil) none none none "t0" "20240101_000000").1

/-- The created record of c3_store. -/
def c3_p : JObj := (load_protocol c3_store "alpha_20240101_000000").getD .nil

/-- A successful update of c3_store touching only the notes field. -/
def c3_upd : ProtocolStore × String :=
  (update_protocol c3_store "alpha_20240101_000000"
    (.cons "notes" (.str "n2") .nil) "t1" "20240102_000000").getD ([], "")

/-- A successful update of c3_store whose changes dict contains the key
version, for the C3 counterexample. -/
def c3x_upd : ProtocolStore × String :=
  (update_protocol c3_store "alpha_20240101_000000"
    (.cons "version" (.int 41) .nil) "t1" "20240102_000000").getD ([], "")

/-- Protocol store with one created record, for the C4 theorems. -/
def c4_store : ProtocolStore :=
  (create_protocol [] "Beta" "d" (.arr .nil) none none none "t0" "20240101_000000").1

/-- The created record of c4_store. -/
def c4_p : JObj := (load_protocol c4_store "beta_20240101_000000").getD .nil

/-- A successful update of c4_store, for the C4 witness. -/
def c4_upd : ProtocolStore × String :=
  (update_protocol c4_store "beta_20240101_000000"
    (.cons "notes" (.str "n2") .nil) "t1" "20240102_000000").getD ([], "")

/-- First step of the C4 counterexample: an update whose changes set
version to 0, so the minted id embeds v1. -/
def c4x_upd1 : ProtocolStore × String :=
  (update_protocol c4_store "beta_20240101_000000"
    (.cons "version" (.int 0) .nil) "t1" "20240101_000001").getD ([], "")

/-- Second step of the C4 counterexample: the same version-resetting update
applied to the v1 record within the same clock second, so the minted id
collides with the loaded record and overwrites it. -/
def c4x_upd2 : ProtocolStore × String :=
  (update_protocol c4x_upd1.1 "beta_v1_20240101_000001"
    (.cons "version" (.int 0) .nil) "t2" "20240101_000001").getD ([], "")

/-- First record of the C5 witness pair. -/
def c5_p1 : JObj :=
  .cons "id" (.str "a_1") (.cons "name" (.str "A")
  (.cons "description" (.str "d1") (.cons "version" (.int 1)
  (.cons "steps" (.arr (.cons (.str "s1") .nil))
  (.cons "materials" (.arr .nil) (.cons "notes" (.str "n1")
  (.cons "tags" (.arr .nil) .nil)))))))

/-- Second record of the C5 witness pair: same name, steps and materials as
c5_p1, different id, description, version, notes and tags, plus an extra
modified field. -/
def c5_p2 : JObj :=
  .cons "id" (.str "a_v7_2") (.cons "name" (.str "A")
  (.cons "description" (.str "other description") (.cons "version" (.int 7)
  (.cons "steps" (.arr (.cons (.str "s1") .nil))
  (.cons "materials" (.arr .nil) (.cons "notes" (.str "changed notes")
  (.cons "tags" (.arr (.cons (.str "x") .nil))
  (.cons "modified" (.str "t9") .nil))))))))

/-- Protocol store with one created record, for the C6 theorems. -/
def c6_store : ProtocolStore :=
  (create_protocol [] "Gamma" "d" (.arr .nil) none none none "t0" "20240101_000000").1

/-- The created record of c6_store; it has no modified field. -/
def c6_p : JObj := (load_protocol c6_store "gamma_20240101_000000").getD .nil

/-- A successful update of c6_store whose changes dict holds only the
unknown key flavor. -/
def c6_upd : ProtocolStore × String :=
  (update_protocol c6_store "gamma_20240101_000000"
    (.cons "flavor" (.str "x") .nil) "t1" "20240102_000000").getD ([], "")

/-- Experiment whose only searchable occurrence of dna is the raw tag DNA,
for the C7 counterexample. -/
def c7_e : Experiment :=
  { id := "EXP_1", title := "x", protocol_id := none, objective := "",
    hypothesis := "", materials := [], tags := ["DNA"], created := "t",
    status := "In Progress", observations := [], results := [],
    conclusions := "", completed := none, attachments := [] }

/-- Well-formed protocol record for the C7 witness. -/
def c7_q : JObj :=
  .cons "id" (.str "p1") (.cons "name" (.str "Gel")
  (.cons "description" (.str "runs a gel")
  (.cons "tags" (.arr (.cons (.str "Bio") .nil)) .nil)))

/-- One stored sample, for the C8 witness. -/
def c8_s : Sample :=
  { sample_id := "S8", stype := "DNA", description := "d", location := "L",
    quantity := 3, unit := "ug", concentration := none, batch := none,
    source := "", notes := "", added := "t0", status := "Available",
    usage_history := [] }

/-- Inventory for the C8 witness. -/
def c8_inv : List Sample := [c8_s]

/-- A completed experiment stored under its own id, for the C9 witness. -/
def c9_e : Experiment :=
  { id := "EXP_9", title := "T", protocol_id := none, objective := "o",
    hypothesis := "", materials := [], tags := [], created := "t",
    status := "Completed", observations := [], results := [],
    conclusions := "done", completed := some "t1", attachments := [] }

/-- Experiment store for the C9 witness. -/
def c9_store : ExperimentStore := [("EXP_9", c9_e)]

/-- A depleted sample, for the C10 witness. -/
def c10_s : Sample :=
  { sample_id := "S10", stype := "DNA", description := "d", location := "L",
    quantity := 0, unit := "mg", concentration := none, batch := none,
    source := "", notes := "", added := "t0", status := "Depleted",
    usage_history := [{ date := "t1", amount := 5, unit := "mg",
                        used_by := "me", experiment_id := none, notes := "" }] }

/-- Inventory for the C10 witness. -/
def c10_inv : List Sample := [c10_s]

/- ===================== dictionary lemmas ===================== -/

/-- Structural induction principle for JObj alone (the mutual recursor has
several motives, so the induction tactic needs this dedicated one). -/
@[induction_eliminator]
theorem JObj.inductionOn {motive : JObj → Prop} (nil : motive .nil)
    (cons : ∀ (k : String) (v : JValue) (t : JObj), motive t → motive (.cons k v t)) :
    ∀ o, motive o
  | .nil => nil
  | .cons k v t => cons k v t (JObj.inductionOn nil cons t)

theorem oget_oset_self (o : JObj) (k : String) (v : JValue) :
    oget (oset o k v) k = some v := by
  induction o with
  | nil => simp [oset, oget]
  | cons k2 v2 t ih =>
    by_cases h : k2 = k
    · subst h; simp [oset, oget]
    · simp [oset, oget, h, ih]

theorem oget_oset_ne (o : JObj) (k k' : String) (v : JValue) (h : k' ≠ k) :
    oget (oset o k v) k' = oget o k' := by
  induction o with
  | nil => simp [oset, oget, Ne.symm h]
  | cons k2 v2 t ih =>
    by_cases h2 : k2 = k
    · subst h2; simp [oset, oget, Ne.symm h, h]
    · by_cases h3 : k2 = k'
      · subst h3; simp [oset, oget, h2]
      · simp [oset, oget, h2, h3, ih]

theorem ohas_oset (o : JObj) (k k' : String) (v : JValue) :
    ohas (oset o k v) k' = (ohas o k' || (k' == k)) := by
  induction o with
  | nil => simp [oset, ohas, Bool.or_comm, BEq.comm]
  | cons k2 v2 t ih =>
    by_cases h : k2 = k
    · subst h
      by_cases h2 : k2 = k'
      · subst h2; simp [oset, ohas]
      · simp [oset, ohas, h2, Ne.symm h2]
    · by_cases h2 : k2 = k'
      · subst h2; simp [oset, ohas, h]
      · simp [oset, ohas, h, h2, ih, Bool.or_assoc]

theorem oget_apply_updates_of_not_has (u : JObj) (p : JObj) (k : String)
    (h : ohas u k = false) : oget (apply_updates p u) k = oget p k := by
  induction u generalizing p with
  | nil => rfl
  | cons k2 v2 t ih =>
    simp only [ohas, Bool.or_eq_false_iff, beq_eq_false_iff_ne, ne_eq] at h
    obtain ⟨h1, h2⟩ := h
    simp only [apply_updates]
    rw [ih _ h2]
    by_cases hh : ohas p k2
    · simp only [hh, if_true]
      exact oget_oset_ne p k2 k v2 (fun he => h1 he.symm)
    · simp [hh]

theorem ohas_apply_updates (u p : JObj) (k : String) :
    ohas (apply_updates p u) k = ohas p k := by
  induction u generalizing p with
  | nil => rfl
  | cons k2 v2 t ih =>
    simp only [apply_updates]
    rw [ih]
    by_cases hh : ohas p k2
    · rw [if_pos hh, ohas_oset]
      by_cases he : k = k2
      · subst he; simp [hh]
      · simp [he]
    · rw [if_neg hh]

theorem aget_aset_self {α : Type} (l : List (String × α)) (k : String) (v : α) :
    aget (aset l k v) k = some v := by
  induction l with
  | nil => simp [aset, aget]
  | cons kv t ih =>
    obtain ⟨k2, v2⟩ := kv
    by_cases h : k2 = k
    · subst h; simp [aset, aget]
    · simp [aset, aget, h, ih]

theorem aget_aset_ne {α : Type} (l : List (String × α)) (k k' : String) (v : α)
    (h : k' ≠ k) : aget (aset l k v) k' = aget l k' := by
  induction l with
  | nil => simp [aset, aget, Ne.symm h]
  | cons kv t ih =>
    obtain ⟨k2, v2⟩ := kv
    by_cases h2 : k2 = k
    · subst h2; simp [aset, aget, Ne.symm h, h]
    · by_cases h3 : k2 = k'
      · subst h3; simp [aset, aget, h2]
      · simp [aset, aget, h2, h3, ih]

/-- In a store whose records carry their own key in the id field (every
store reachable through the notebook operations does), a loaded record
knows its key. -/
theorem aget_id_of_all (store : ExperimentStore) (k : String) (e : Experiment)
    (hwf : store.all (fun kv => kv.2.id == kv.1) = true)
    (h : aget store k = some e) : e.id = k := by
  induction store with
  | nil => simp [aget] at h
  | cons kv t ih =>
    obtain ⟨k2, e2⟩ := kv
    simp only [List.all_cons, Bool.and_eq_true, beq_iff_eq] at hwf
    by_cases h2 : k2 = k
    · subst h2
      simp only [aget, beq_self_eq_true, if_true, Option.some.injEq] at h
      subst h
      exact hwf.1
    · simp only [aget, beq_eq_false_iff_ne.mpr h2, if_false] at h
      exact ih (by simpa using hwf.2) h

/- ===================== update_protocol structure ===================== -/

/-- Characterization of a successful update_protocol call: the loaded
record, the pre-increment version, the recomputed checksum and the updated
name exist, the new id is minted from name, new version and timestamp, and
the new store is the old store with the final record saved under the new
id. -/
theorem update_protocol_eq (store : ProtocolStore) (pid : String) (updates : JObj)
    (now ts : String) (store' : ProtocolStore) (nid : String)
    (hu : update_protocol store pid updates now ts = some (store', nid)) :
    ∃ (p0 : JObj) (v : Int) (cs nm : String),
      load_protocol store pid = some p0 ∧
      oget (apply_updates p0 updates) "version" = some (.int v) ∧
      calculate_checksum (oset (oset (apply_updates p0 updates) "version"
        (.int (v + 1))) "modified" (.str now)) = some cs ∧
      getStr (oset (oset (oset (apply_updates p0 updates) "version"
        (.int (v + 1))) "modified" (.str now)) "checksum" (.str cs)) "name" = some nm ∧
      nid = pySlug nm ++ "_v" ++ toString (v + 1) ++ "_" ++ ts ∧
      store' = aset store nid (oset (oset (oset (oset (apply_updates p0 updates)
        "version" (.int (v + 1))) "modified" (.str now)) "checksum" (.str cs))
        "id" (.str nid)) := by
  unfold update_protocol at hu
  cases h0 : load_protocol store pid with
  | none => rw [h0] at hu; exact absurd hu (by simp)
  | some p0 =>
    rw [h0] at hu
    simp only [] at hu
    cases h1 : oget (apply_updates p0 updates) "version" with
    | none => rw [h1] at hu; exact absurd hu (by simp)
    | some ver =>
      rw [h1] at hu
      cases ver with
      | int v =>
        simp only [] at hu
        cases h2 : calculate_checksum (oset (oset (apply_updates p0 updates)
            "version" (.int (v + 1))) "modified" (.str now)) with
        | none => rw [h2] at hu; exact absurd hu (by simp)
        | some cs =>
          rw [h2] at hu
          simp only [] at hu
          cases h3 : getStr (oset (oset (oset (apply_updates p0 updates)
              "version" (.int (v + 1))) "modified" (.str now)) "checksum"
              (.str cs)) "name" with
          | none => rw [h3] at hu; exact absurd hu (by simp)
          | some nm =>
            rw [h3] at hu
            simp only [Option.some.injEq, Prod.mk.injEq] at hu
            obtain ⟨ha, hb⟩ := hu
            subst hb
            exact ⟨p0, v, cs, nm, rfl, h1, h2, h3, rfl, ha.symm⟩
      | null => exact absurd hu (by simp)
      | str s => exact absurd hu (by simp)
      | arr xs => exact absurd hu (by simp)
      | obj kvs => exact absurd hu (by simp)

/- ===================== sample tracker lemmas ===================== -/

/-- Updating the first matching record of the inventory is visible through
get_sample as the expected field update. -/
theorem get_sample_apply_usage (inv : List Sample) (sid : String) (q : Int)
    (u : Usage) (s : Sample) (h : get_sample inv sid = some s) :
    get_sample (apply_usage inv sid q u) sid =
      some { s with quantity := q, usage_history := s.usage_history ++ [u],
                    status := if q ≤ 0 then "Depleted" else s.status } := by
  induction inv with
  | nil => simp [get_sample] at h
  | cons s0 rest ih =>
    by_cases h0 : s0.sample_id = sid
    · simp only [get_sample, List.find?_cons, beq_iff_eq.mpr h0,
        Option.some.injEq] at h
      subst h
      simp [get_sample, apply_usage, List.find?_cons, beq_iff_eq.mpr h0]
    · have hb : (s0.sample_id == sid) = false := beq_eq_false_iff_ne.mpr h0
      simp only [get_sample, List.find?_cons, hb] at h
      simp only [apply_usage, hb, Bool.false_eq_true, if_false, get_sample,
        List.find?_cons]
      exact ih h

/-- A matching-unit use sequence keeps the sample id. -/
theorem foldl_step_sample_id (u ub : String) (l : List Int) (s : Sample) :
    (List.foldl (sample_step u ub) s l).sample_id = s.sample_id := by
  induction l generalizing s with
  | nil => rfl
  | cons a t ih => exact ih (sample_step u ub s a)

/-- A matching-unit use sequence keeps the unit. -/
theorem foldl_step_unit (u ub : String) (l : List Int) (s : Sample) :
    (List.foldl (sample_step u ub) s l).unit = s.unit := by
  induction l generalizing s with
  | nil => rfl
  | cons a t ih => exact ih (sample_step u ub s a)

/-- A use sequence subtracts exactly the sum of the amounts. -/
theorem foldl_step_quantity (u ub : String) (l : List Int) (s : Sample) :
    (List.foldl (sample_step u ub) s l).quantity = s.quantity - l.sum := by
  induction l generalizing s with
  | nil => simp
  | cons a t ih =>
    simp only [List.foldl, List.sum_cons, ih (sample_step u ub s a)]
    show s.quantity - a - t.sum = s.quantity - (a + t.sum)
    omega

/-- The Depleted status is absorbing along a use sequence: the source only
ever writes the status Depleted, never Available. -/
theorem foldl_step_depleted (u ub : String) (l : List Int) (s : Sample)
    (h : s.status = "Depleted") :
    (List.foldl (sample_step u ub) s l).status = "Depleted" := by
  induction l generalizing s with
  | nil => exact h
  | cons a t ih =>
    apply ih
    simp [sample_step, h]

/-- After a non-empty sequence of nonnegative matching-unit usages starting
from the Available status, the status is Depleted exactly when the running
quantity has reached zero or less. -/
theorem foldl_step_status_iff (u ub : String) (l : List Int) (s : Sample)
    (hav : s.status = "Available") (hpos : ∀ a ∈ l, 0 ≤ a) (hne : l ≠ []) :
    ((List.foldl (sample_step u ub) s l).status = "Depleted" ↔
      (List.foldl (sample_step u ub) s l).quantity ≤ 0) := by
  induction l generalizing s with
  | nil => exact absurd rfl hne
  | cons a t ih =>
    simp only [List.foldl]
    rcases t with _ | ⟨b, t2⟩
    · simp only [List.foldl]
      by_cases hq : s.quantity - a ≤ 0
      · simp [sample_step, hq]
      · have h1 : (sample_step u ub s a).status = "Available" := by
          simp [sample_step, hq, hav]
        have h2 : (sample_step u ub s a).quantity = s.quantity - a := rfl
        rw [h1, h2]
        constructor
        · intro h3; exact absurd h3 (by decide)
        · intro h3; exact absurd h3 hq
    · by_cases hq : s.quantity - a ≤ 0
      · have hd : (sample_step u ub s a).status = "Depleted" := by
          simp [sample_step, hq]
        have hsum : 0 ≤ (b :: t2).sum :=
          List.sum_nonneg (fun x hx => hpos x (List.mem_cons_of_mem a hx))
        have hqty : (List.foldl (sample_step u ub) (sample_step u ub s a)
            (b :: t2)).quantity ≤ 0 := by
          rw [foldl_step_quantity]
          have h2 : (sample_step u ub s a).quantity = s.quantity - a := rfl
          omega
        exact ⟨fun _ => hqty, fun _ => foldl_step_depleted u ub (b :: t2) _ hd⟩
      · have h1 : (sample_step u ub s a).status = "Available" := by
          simp [sample_step, hq, hav]
        exact ih (sample_step u ub s a) h1
          (fun x hx => hpos x (List.mem_cons_of_mem a hx)) (by simp)

/-- A use sequence on a one-sample inventory with matching id and unit is
the fold of the per-call effect. -/
theorem use_seq_singleton (sid u ub : String) (amounts : List Int) (s : Sample)
    (hid : s.sample_id = sid) (hu : s.unit = u) :
    use_seq [s] sid amounts u ub = [List.foldl (sample_step u ub) s amounts] := by
  induction amounts generalizing s with
  | nil => rfl
  | cons a t ih =>
    have h1 : get_sample [s] sid = some s := by
      simp [get_sample, List.find?_cons, beq_iff_eq.mpr hid]
    have hstep : (use_sample [s] sid a u ub none none "").1 = [sample_step u ub s a] := by
      simp only [use_sample, h1, beq_iff_eq.mpr hu, if_true]
      simp [apply_usage, beq_iff_eq.mpr hid, sample_step]
    show use_seq ((use_sample [s] sid a u ub none none "").1) sid t u ub = _
    rw [hstep]
    exact ih (sample_step u ub s a) hid hu

/- ===================== claims C1, C2, C8, C10 ===================== -/

/-- Claim C1, counterexample to the claim as stated: create a sample with
quantity 1 mg, use 2 mg (quantity -1, status Depleted), then record a usage
of -2 mg with the matching unit. The stored quantity is again
1 - (2 + (-2)) = 1 > 0, yet the status is still Depleted, so the claimed
equivalence (Depleted iff quantity at most 0) fails for this sequence of
matching-unit use_sample calls. -/
theorem c1_counterexample :
    (get_sample c1_inv1 "S1").map Sample.quantity = some 1 ∧
    (get_sample c1_inv1 "S1").map Sample.status = some "Depleted" ∧
    ¬ ((1 : Int) ≤ 0) :=
  ⟨rfl, rfl, by decide⟩

/-- Claim C1 (amended): for a sample created by add_sample with quantity Q
and unit U, after any sequence of matching-unit use_sample calls the stored
quantity is exactly Q minus the sum of the amounts; and when the amounts
are nonnegative and at least one call was made, the status is Depleted if
and only if that quantity is at most 0 (the equivalence can fail for
negative amounts, since the Depleted status is never reverted, and for the
empty call sequence, since add_sample always stamps Available). -/
theorem c1_use_sample_quantity_and_status
    (sample_id stype descr loc : String) (q0 : Int) (unit : String)
    (conc batch src nts : Option String) (added used_by : String)
    (amounts : List Int) :
    ((get_sample (use_seq (add_sample [] sample_id stype descr loc q0 unit
        conc batch src nts added).1 sample_id amounts unit used_by)
        sample_id).map Sample.quantity = some (q0 - amounts.sum))
    ∧ ((∀ a ∈ amounts, 0 ≤ a) → amounts ≠ [] →
      ((get_sample (use_seq (add_sample [] sample_id stype descr loc q0 unit
          conc batch src nts added).1 sample_id amounts unit used_by)
          sample_id).map Sample.status = some "Depleted" ↔ q0 - amounts.sum ≤ 0)) := by
  have hadd : (add_sample [] sample_id stype descr loc q0 unit conc batch src
      nts added).1 =
      [{ sample_id := sample_id, stype := stype, description := descr,
         location := loc, quantity := q0, unit := unit, concentration := conc,
         batch := batch, source := src.getD "", notes := nts.getD "",
         added := added, status := "Available", usage_history := [] }] := by
    simp [add_sample]
  rw [hadd, use_seq_singleton sample_id unit used_by amounts _ rfl rfl]
  have hget : get_sample [List.foldl (sample_step unit used_by)
      { sample_id := sample_id, stype := stype, description := descr,
        location := loc, quantity := q0, unit := unit, concentration := conc,
        batch := batch, source := src.getD "", notes := nts.getD "",
        added := added, status := "Available", usage_history := [] } amounts]
      sample_id =
      some (List.foldl (sample_step unit used_by)
      { sample_id := sample_id, stype := stype, description := descr,
        location := loc, quantity := q0, unit := unit, concentration := conc,
        batch := batch, source := src.getD "", notes := nts.getD "",
        added := added, status := "Available", usage_history := [] } amounts) := by
    simp [get_sample, List.find?_cons, foldl_step_sample_id]
  constructor
  · rw [hget]
    simp only [Option.map_some']
    rw [foldl_step_quantity]
  · intro hpos hne
    rw [hget]
    simp only [Option.map_some', Option.some.injEq]
    have h := foldl_step_status_iff unit used_by amounts
      { sample_id := sample_id, stype := stype, description := descr,
        location := loc, quantity := q0, unit := unit, concentration := conc,
        batch := batch, source := src.getD "", notes := nts.getD "",
        added := added, status := "Available", usage_history := [] }
      rfl hpos hne
    rw [foldl_step_quantity] at h
    exact h

/-- Claim C1 witness: the amended statement evaluated at the scenario of
the spec (quantity 100, usages 20 then 80 with the matching unit). -/
theorem c1_witness :
    (∀ a ∈ ([20, 80] : List Int), 0 ≤ a) ∧ ([20, 80] : List Int) ≠ [] ∧
    ((get_sample (use_seq (add_sample [] "S1" "DNA" "d" "L" 100 "ug" none none
        none none "t0").1 "S1" [20, 80] "ug" "me") "S1").map Sample.quantity
      = some (100 - ([20, 80] : List Int).sum)) ∧
    ((get_sample (use_seq (add_sample [] "S1" "DNA" "d" "L" 100 "ug" none none
        none none "t0").1 "S1" [20, 80] "ug" "me") "S1").map Sample.status
      = some "Depleted" ↔ (100 : Int) - ([20, 80] : List Int).sum ≤ 0) :=
  ⟨by decide, by decide,
   (c1_use_sample_quantity_and_status "S1" "DNA" "d" "L" 100 "ug" none none
     none none "t0" "me" [20, 80]).1,
   (c1_use_sample_quantity_and_status "S1" "DNA" "d" "L" 100 "ug" none none
     none none "t0" "me" [20, 80]).2 (by decide) (by decide)⟩

/-- Claim C2: a use_sample call on an existing sample whose stored unit
differs from the call unit (exact string comparison) reports the unit
mismatch and returns the inventory entirely unchanged, so quantity, status
and usage_history of every sample are untouched and no usage entry is
appended. -/
theorem c2_use_sample_unit_mismatch (inv : List Sample) (sid : String)
    (a : Int) (u ub : String) (eid nts : Option String) (d : String)
    (s : Sample) (hs : get_sample inv sid = some s) (hu : s.unit ≠ u) :
    use_sample inv sid a u ub eid nts d = (inv, .unitMismatch) := by
  simp [use_sample, hs, beq_eq_false_iff_ne.mpr hu]

/-- Claim C2 witness: the theorem applied to a one-sample inventory storing
the unit mg and a call using the unit g. -/
theorem c2_witness :
    get_sample c2_inv "S2" = some c2_s ∧ c2_s.unit ≠ "g" ∧
    use_sample c2_inv "S2" 1 "g" "me" none none "t1" = (c2_inv, .unitMismatch) :=
  ⟨rfl, by decide,
   c2_use_sample_unit_mismatch c2_inv "S2" 1 "g" "me" none none "t1" c2_s rfl
     (by decide)⟩

/-- Claim C8: add_sample with an already-present sample_id returns the
failure outcome (no id) and leaves the inventory unchanged, and every
add_sample call preserves the uniqueness of the sample ids. -/
theorem c8_add_sample_duplicate (inv : List Sample)
    (sid stype descr loc : String) (q : Int) (u : String)
    (conc batch src nts : Option String) (added : String) :
    ((inv.map Sample.sample_id).contains sid = true →
      add_sample inv sid stype descr loc q u conc batch src nts added = (inv, none))
    ∧ ((inv.map Sample.sample_id).Nodup →
      ((add_sample inv sid stype descr loc q u conc batch src nts added).1.map
        Sample.sample_id).Nodup) := by
  constructor
  · intro h
    simp only [add_sample]
    rw [if_pos h]
  · intro h
    by_cases hc : (inv.map Sample.sample_id).contains sid = true
    · simp only [add_sample]
      rw [if_pos hc]
      exact h
    · have hmem : sid ∉ inv.map Sample.sample_id := by simpa using hc
      simp only [add_sample]
      rw [if_neg hc]
      simp only [List.map_append, List.map_cons, List.map_nil]
      simp [List.nodup_append, h, hmem]

/-- Claim C8 witness: the theorem applied to a one-sample inventory and a
duplicate id. -/
theorem c8_witness :
    (c8_inv.map Sample.sample_id).contains "S8" = true ∧
    (c8_inv.map Sample.sample_id).Nodup ∧
    add_sample c8_inv "S8" "DNA" "d" "L" 3 "ug" none none none none "t0"
      = (c8_inv, none) ∧
    ((add_sample c8_inv "S8" "DNA" "d" "L" 3 "ug" none none none none
      "t0").1.map Sample.sample_id).Nodup :=
  ⟨rfl, by decide,
   (c8_add_sample_duplicate c8_inv "S8" "DNA" "d" "L" 3 "ug" none none none
     none "t0").1 rfl,
   (c8_add_sample_duplicate c8_inv "S8" "DNA" "d" "L" 3 "ug" none none none
     none "t0").2 (by decide)⟩

/-- Claim C10: use_sample has no status guard: on a sample whose status is
already Depleted, a matching-unit call still succeeds, appends the usage
entry to the ledger, decrements the quantity further and leaves the status
Depleted. -/
theorem c10_use_sample_on_depleted (inv : List Sample) (sid : String)
    (a : Int) (u ub : String) (eid nts : Option String) (d : String)
    (s : Sample) (hs : get_sample inv sid = some s)
    (hst : s.status = "Depleted") (hu : s.unit = u) :
    use_sample inv sid a u ub eid nts d =
      (apply_usage inv sid (s.quantity - a)
        { date := d, amount := a, unit := u, used_by := ub,
          experiment_id := eid, notes := nts.getD "" }, .ok (s.quantity - a)) ∧
    (get_sample (use_sample inv sid a u ub eid nts d).1 sid).map Sample.quantity
      = some (s.quantity - a) ∧
    (get_sample (use_sample inv sid a u ub eid nts d).1 sid).map Sample.status
      = some "Depleted" ∧
    (get_sample (use_sample inv sid a u ub eid nts d).1 sid).map
        Sample.usage_history
      = some (s.usage_history ++
        [{ date := d, amount := a, unit := u, used_by := ub,
           experiment_id := eid, notes := nts.getD "" }]) := by
  have hcall : use_sample inv sid a u ub eid nts d =
      (apply_usage inv sid (s.quantity - a)
        { date := d, amount := a, unit := u, used_by := ub,
          experiment_id := eid, notes := nts.getD "" }, .ok (s.quantity - a)) := by
    simp [use_sample, hs, beq_iff_eq.mpr hu]
  have hga := get_sample_apply_usage inv sid (s.quantity - a)
    { date := d, amount := a, unit := u, used_by := ub,
      experiment_id := eid, notes := nts.getD "" } s hs
  refine ⟨hcall, ?_, ?_, ?_⟩
  · rw [hcall]
    show (get_sample (apply_usage inv sid (s.quantity - a) _) sid).map
      Sample.quantity = _
    rw [hga]
    rfl
  · rw [hcall]
    show (get_sample (apply_usage inv sid (s.quantity - a) _) sid).map
      Sample.status = _
    rw [hga]
    simp [hst]
  · rw [hcall]
    show (get_sample (apply_usage inv sid (s.quantity - a) _) sid).map
      Sample.usage_history = _
    rw [hga]
    rfl

/-- Claim C10 witness: the theorem applied to a depleted sample of quantity
0; a further 2 mg usage leaves quantity -2, status Depleted, and a grown
ledger. -/
theorem c10_witness :
    get_sample c10_inv "S10" = some c10_s ∧ c10_s.status = "Depleted" ∧
    c10_s.unit = "mg" ∧
    ((get_sample (use_sample c10_inv "S10" 2 "mg" "me" none none "t2").1
      "S10").map Sample.quantity = some (c10_s.quantity - 2)) ∧
    ((get_sample (use_sample c10_inv "S10" 2 "mg" "me" none none "t2").1
      "S10").map Sample.status = some "Depleted") ∧
    ((get_sample (use_sample c10_inv "S10" 2 "mg" "me" none none "t2").1
      "S10").map Sample.usage_history = some (c10_s.usage_history ++
        [{ date := "t2", amount := 2, unit := "mg", used_by := "me",
           experiment_id := none, notes := "" }])) :=
  ⟨rfl, rfl, rfl,
   (c10_use_sample_on_depleted c10_inv "S10" 2 "mg" "me" none none "t2" c10_s
     rfl rfl rfl).2.1,
   (c10_use_sample_on_depleted c10_inv "S10" 2 "mg" "me" none none "t2" c10_s
     rfl rfl rfl).2.2.1,
   (c10_use_sample_on_depleted c10_inv "S10" 2 "mg" "me" none none "t2" c10_s
     rfl rfl rfl).2.2.2⟩

/- ===================== claims C3, C4, C5, C6 ===================== -/

/-- Claim C3, counterexample to the claim as stated: the changes dict may
itself contain the key version, which is an existing top-level field and is
therefore applied before the increment. Updating a version-1 protocol with
changes setting version to 41 persists version 42, not 1 + 1 = 2, so the
new version is not P.version + 1 for every accepted changes dict. -/
theorem c3_counterexample :
    oget c3_p "version" = some (.int 1) ∧
    (aget c3x_upd.1 c3x_upd.2).bind (fun q => oget q "version")
      = some (.int 42) ∧
    (42 : Int) ≠ 1 + 1 :=
  ⟨rfl, rfl, by decide⟩

/-- Claim C3 (amended): for every successful update_protocol call whose
changes dict does not contain the key version, the version of the newly
persisted record is exactly the loaded version plus one, and in particular
it never decreases. -/
theorem c3_update_protocol_version (store : ProtocolStore) (pid : String)
    (updates : JObj) (now ts : String) (p : JObj) (v : Int)
    (store' : ProtocolStore) (nid : String)
    (hp : load_protocol store pid = some p)
    (hv : oget p "version" = some (.int v))
    (hnov : ohas updates "version" = false)
    (hu : update_protocol store pid updates now ts = some (store', nid)) :
    (aget store' nid).bind (fun q => oget q "version") = some (.int (v + 1)) ∧
    v ≤ v + 1 := by
  obtain ⟨p0, v', cs, nm, h0, h1, h2, h3, h4, h5⟩ :=
    update_protocol_eq store pid updates now ts store' nid hu
  rw [hp] at h0
  injection h0 with h0
  subst h0
  rw [oget_apply_updates_of_not_has updates p "version" hnov, hv] at h1
  injection h1 with h1
  injection h1 with h1
  subst h1
  subst h5
  refine ⟨?_, by omega⟩
  rw [aget_aset_self]
  show oget (oset _ "id" _) "version" = _
  rw [oget_oset_ne _ _ _ _ (by decide), oget_oset_ne _ _ _ _ (by decide),
    oget_oset_ne _ _ _ _ (by decide), oget_oset_self]

/-- Claim C3 witness: the amended statement evaluated on a freshly created
version-1 protocol updated with a notes-only change: the new record has
version 2. -/
theorem c3_witness :
    load_protocol c3_store "alpha_20240101_000000" = some c3_p ∧
    oget c3_p "version" = some (.int 1) ∧
    ohas (JObj.cons "notes" (.str "n2") .nil) "version" = false ∧
    ((aget c3_upd.1 c3_upd.2).bind (fun q => oget q "version")
      = some (.int (1 + 1)) ∧ (1 : Int) ≤ 1 + 1) :=
  ⟨rfl, rfl, rfl,
   c3_update_protocol_version c3_store "alpha_20240101_000000"
     (JObj.cons "notes" (.str "n2") .nil) "t1" "20240102_000000" c3_p 1
     c3_upd.1 c3_upd.2 rfl rfl rfl rfl⟩

/-- Claim C4, counterexample to the claim as stated: ids embed only the
name, the version and a second-resolution timestamp, so the minted id can
collide with the updated record itself. Resetting version to 0 mints a v1
id; doing so again on that record within the same clock second mints the
same id, and the save overwrites the loaded record (its modified stamp
changes from t1 to t2) instead of persisting a brand-new record alongside
it. -/
theorem c4_counterexample :
    c4x_upd2.2 = "beta_v1_20240101_000001" ∧
    (aget c4x_upd1.1 "beta_v1_20240101_000001").bind (fun q => oget q "modified")
      = some (.str "t1") ∧
    (aget c4x_upd2.1 "beta_v1_20240101_000001").bind (fun q => oget q "modified")
      = some (.str "t2") :=
  ⟨rfl, rfl, rfl⟩

/-- Claim C4 (amended): for every successful update_protocol call whose
minted new id differs from the updated protocols original id (a collision
needs a same-second timestamp plus a version-manipulating change), the
record stored under the original id is unchanged and the updated content is
persisted under the new id alongside it. -/
theorem c4_update_protocol_preserves_original (store : ProtocolStore)
    (pid : String) (updates : JObj) (now ts : String) (p : JObj)
    (store' : ProtocolStore) (nid : String)
    (hp : load_protocol store pid = some p)
    (hu : update_protocol store pid updates now ts = some (store', nid))
    (hne : nid ≠ pid) :
    aget store' pid = some p ∧ (aget store' nid).isSome := by
  obtain ⟨p0, v, cs, nm, h0, h1, h2, h3, h4, h5⟩ :=
    update_protocol_eq store pid updates now ts store' nid hu
  rw [hp] at h0
  injection h0 with h0
  subst h0
  subst h5
  constructor
  · rw [aget_aset_ne _ _ _ _ (Ne.symm hne)]
    exact hp
  · rw [aget_aset_self]
    rfl

/-- Claim C4 witness: the amended statement evaluated on a created protocol
and a notes-only update: the v2 record is stored under its new id and the
original record is still loadable unchanged. -/
theorem c4_witness :
    load_protocol c4_store "beta_20240101_000000" = some c4_p ∧
    c4_upd.2 ≠ "beta_20240101_000000" ∧
    aget c4_upd.1 "beta_20240101_000000" = some c4_p ∧
    (aget c4_upd.1 c4_upd.2).isSome :=
  ⟨rfl, by decide,
   (c4_update_protocol_preserves_original c4_store "beta_20240101_000000"
     (.cons "notes" (.str "n2") .nil) "t1" "20240102_000000" c4_p
     c4_upd.1 c4_upd.2 rfl rfl (by decide)).1,
   (c4_update_protocol_preserves_original c4_store "beta_20240101_000000"
     (.cons "notes" (.str "n2") .nil) "t1" "20240102_000000" c4_p
     c4_upd.1 c4_upd.2 rfl rfl (by decide)).2⟩

/-- Claim C5: the protocol checksum is a function of exactly the name,
steps and materials fields (materials defaulting to the empty list): any
two records agreeing on those three agree on the checksum, whatever their
other fields (notes, tags, description, version, timestamps) hold, and the
digest of the same three fields is stable since the serialization is a
pure function. -/
theorem c5_checksum_function_of_three_fields (p1 p2 : JObj)
    (hn : oget p1 "name" = oget p2 "name")
    (hs : oget p1 "steps" = oget p2 "steps")
    (hm : (oget p1 "materials").getD (.arr .nil)
        = (oget p2 "materials").getD (.arr .nil)) :
    calculate_checksum p1 = calculate_checksum p2 := by
  unfold calculate_checksum
  rw [hn, hs, hm]

/-- Claim C5 witness: two records sharing name, steps and materials but
differing in id, description, version, notes and tags (and one carrying an
extra modified stamp) have the same checksum. -/
theorem c5_witness :
    oget c5_p1 "name" = oget c5_p2 "name" ∧
    oget c5_p1 "steps" = oget c5_p2 "steps" ∧
    (oget c5_p1 "materials").getD (.arr .nil)
      = (oget c5_p2 "materials").getD (.arr .nil) ∧
    oget c5_p1 "notes" = some (.str "n1") ∧
    oget c5_p2 "notes" = some (.str "changed notes") ∧
    calculate_checksum c5_p1 = calculate_checksum c5_p2 :=
  ⟨rfl, rfl, rfl, rfl, rfl,
   c5_checksum_function_of_three_fields c5_p1 c5_p2 rfl rfl rfl⟩

/-- Claim C6, counterexample to the claim as stated: unknown keys of the
changes dict are indeed ignored without error, but the persisted new record
is not key-for-key bounded by the original: the operation always stamps a
modified field, which a freshly created record does not have. Updating a
created record with only the unknown key flavor yields a record containing
the new key modified. -/
theorem c6_counterexample :
    ohas c6_p "modified" = false ∧
    (aget c6_upd.1 c6_upd.2).map (fun q => ohas q "modified") = some true ∧
    (aget c6_upd.1 c6_upd.2).map (fun q => ohas q "flavor") = some false :=
  ⟨rfl, rfl, rfl⟩

/-- Claim C6 (amended): a successful update_protocol call applies only
changes whose keys are existing top-level fields, raises no error for
unknown keys, and the persisted new record has exactly the keys of the
original record plus (at most) the modified stamp: any key of the new
record is a key of the original or is the key modified. Stated for records
with the standard id, version and checksum fields, which every record
written by create_protocol or update_protocol has. -/
theorem c6_update_protocol_keys (store : ProtocolStore) (pid : String)
    (updates : JObj) (now ts : String) (p : JObj) (store' : ProtocolStore)
    (nid : String) (k : String)
    (hp : load_protocol store pid = some p)
    (hid : ohas p "id" = true) (hver : ohas p "version" = true)
    (hcs : ohas p "checksum" = true)
    (hu : update_protocol store pid updates now ts = some (store', nid)) :
    (aget store' nid).map (fun q => ohas q k)
      = some (ohas p k || (k == "modified")) := by
  obtain ⟨p0, v, cs, nm, h0, h1, h2, h3, h4, h5⟩ :=
    update_protocol_eq store pid updates now ts store' nid hu
  rw [hp] at h0
  injection h0 with h0
  subst h0
  subst h5
  rw [aget_aset_self]
  simp only [Option.map_some', Option.some.injEq]
  rw [ohas_oset, ohas_oset, ohas_oset, ohas_oset, ohas_apply_updates]
  by_cases h1k : k = "version"
  · subst h1k; simp [hver]
  by_cases h2k : k = "checksum"
  · subst h2k; simp [hcs]
  by_cases h3k : k = "id"
  · subst h3k; simp [hid]
  rw [beq_eq_false_iff_ne.mpr h1k, beq_eq_false_iff_ne.mpr h2k,
    beq_eq_false_iff_ne.mpr h3k]
  simp

/-- Claim C6 witness: the amended statement evaluated at a created record
updated with the single unknown key flavor; the new record does not contain
flavor. -/
theorem c6_witness :
    load_protocol c6_store "gamma_20240101_000000" = some c6_p ∧
    ohas c6_p "id" = true ∧ ohas c6_p "version" = true ∧
    ohas c6_p "checksum" = true ∧
    (aget c6_upd.1 c6_upd.2).map (fun q => ohas q "flavor")
      = some (ohas c6_p "flavor" || ("flavor" == "modified")) ∧
    ohas c6_p "flavor" = false :=
  ⟨rfl, rfl, rfl, rfl,
   c6_update_protocol_keys c6_store "gamma_20240101_000000"
     (.cons "flavor" (.str "x") .nil) "t1" "20240102_000000" c6_p
     c6_upd.1 c6_upd.2 "flavor" rfl rfl rfl rfl rfl,
   rfl⟩

/- ===================== claims C7, C9 ===================== -/

/-- Claim C7, counterexample to the claim as stated: keyword search is not
fully case-insensitive, because the stored tags are joined raw while only
name/title, description/objective and the keyword are lowercased. For an
experiment whose only occurrence of dna is the tag DNA, the keyword DNA
occurs case-insensitively in the searchable concatenation, yet the search
returns the empty list. -/
theorem c7_counterexample :
    search_experiments [c7_e] "DNA" = [] ∧
    pyIn (pyLower "DNA") (pyLower (experiment_searchable c7_e)) = true :=
  ⟨rfl, rfl⟩

/-- Claim C7 (amended): keyword search lowercases the keyword and matches
it as a substring of lowercased name/title plus lowercased
description/objective plus the space-joined raw tags, so matching is
case-insensitive in the keyword and in the name/title and
description/objective fields but case-sensitive in the stored tag text; a
record is returned exactly when that substring test succeeds, and the
result is the empty sequence, never an error, when no record matches (for
protocols, on well-formed records). -/
theorem c7_search_behavior (recs : List Experiment) (precs : List JObj)
    (kw kw1 kw2 : String) (r : ExpMatch) :
    (r ∈ search_experiments recs kw ↔ ∃ e ∈ recs,
      pyIn (pyLower kw) (experiment_searchable e) = true ∧
      r = { id := e.id, title := e.title, status := e.status }) ∧
    ((∀ e ∈ recs, pyIn (pyLower kw) (experiment_searchable e) = false) →
      search_experiments recs kw = []) ∧
    (pyLower kw1 = pyLower kw2 →
      search_experiments recs kw1 = search_experiments recs kw2) ∧
    ((∀ q ∈ precs, ∃ s, protocol_searchable q = some s ∧
        pyIn (pyLower kw) s = false) →
      search_protocols precs kw = some []) ∧
    (pyLower kw1 = pyLower kw2 →
      search_protocols precs kw1 = search_protocols precs kw2) := by
  refine ⟨?_, ?_, ?_, ?_, ?_⟩
  · simp only [search_experiments, List.mem_map, List.mem_filter]
    constructor
    · rintro ⟨e, ⟨he, hm⟩, hr⟩
      exact ⟨e, he, hm, hr.symm⟩
    · rintro ⟨e, he, hm, hr⟩
      exact ⟨e, ⟨he, hm⟩, hr.symm⟩
  · intro h
    induction recs with
    | nil => rfl
    | cons e t ih =>
      have he := h e (List.mem_cons_self e t)
      have ht := ih (fun x hx => h x (List.mem_cons_of_mem e hx))
      simp only [search_experiments] at ht ⊢
      rw [List.filter_cons, he]
      simpa using ht
  · intro h
    simp only [search_experiments, h]
  · intro h
    induction precs with
    | nil => rfl
    | cons q t ih =>
      obtain ⟨s, hs, hf⟩ := h q (List.mem_cons_self q t)
      have ht := ih (fun x hx => h x (List.mem_cons_of_mem q hx))
      simp [search_protocols, hs, ht, hf]
  · intro h
    induction precs with
    | nil => rfl
    | cons q t ih =>
      simp only [search_protocols, h, ih]

/-- Claim C7 witness: the amended statement evaluated on one experiment and
one protocol record: the membership characterization at keyword x, the
empty result at the unmatched keyword zzz for both entity kinds, and the
keyword-case invariance between DnA and dNa. -/
theorem c7_witness :
    (({ id := "EXP_1", title := "x", status := "In Progress" } : ExpMatch)
        ∈ search_experiments [c7_e] "x" ↔ ∃ e ∈ [c7_e],
      pyIn (pyLower "x") (experiment_searchable e) = true ∧
      ({ id := "EXP_1", title := "x", status := "In Progress" } : ExpMatch)
        = { id := e.id, title := e.title, status := e.status }) ∧
    search_experiments [c7_e] "zzz" = [] ∧
    search_experiments [c7_e] "DnA" = search_experiments [c7_e] "dNa" ∧
    search_protocols [c7_q] "zzz" = some [] ∧
    search_protocols [c7_q] "DnA" = search_protocols [c7_q] "dNa" :=
  ⟨(c7_search_behavior [c7_e] [c7_q] "x" "DnA" "dNa"
      { id := "EXP_1", title := "x", status := "In Progress" }).1,
   (c7_search_behavior [c7_e] [c7_q] "zzz" "DnA" "dNa"
      { id := "", title := "", status := "" }).2.1 (by decide),
   (c7_search_behavior [c7_e] [c7_q] "zzz" "DnA" "dNa"
      { id := "", title := "", status := "" }).2.2.1 rfl,
   (c7_search_behavior [c7_e] [c7_q] "zzz" "DnA" "dNa"
      { id := "", title := "", status := "" }).2.2.2.1
     (by
       intro q hq
       rw [List.mem_singleton] at hq
       subst hq
       exact ⟨_, rfl, rfl⟩),
   (c7_search_behavior [c7_e] [c7_q] "zzz" "DnA" "dNa"
      { id := "", title := "", status := "" }).2.2.2.2 rfl⟩

/-- Claim C9: experiment status only moves from In Progress to Completed
and never back: create_experiment stamps In Progress, add_observation and
add_results never change any stored status, complete_experiment sets status
Completed together with the conclusions and the completed stamp, and no
core operation turns a Completed status back into In Progress. Stated for
stores whose records carry their key as their id field, which holds for
every store produced by the notebook operations. -/
theorem c9_experiment_status_transitions (store : ExperimentStore)
    (title : String) (pid obj hyp : Option String)
    (mats tags : Option (List String)) (cnow cts : String)
    (eid text : String) (tso : Option String) (now : String)
    (rdata : List (String × String)) (dfile : Option String)
    (concl : String) (k : String) (e : Experiment)
    (hwf : store.all (fun kv => kv.2.id == kv.1) = true) :
    (new_experiment title pid obj hyp mats tags cnow cts).status = "In Progress" ∧
    (aget (add_observation store eid text tso now) k).map Experiment.status
      = (aget store k).map Experiment.status ∧
    (aget (add_results store eid rdata dfile now) k).map Experiment.status
      = (aget store k).map Experiment.status ∧
    ((aget store k).map Experiment.status = some "Completed" →
      (aget (complete_experiment store eid concl now) k).map Experiment.status
        = some "Completed") ∧
    (aget store eid = some e →
      aget (complete_experiment store eid concl now) eid
        = some { e with status := "Completed", conclusions := concl,
                        completed := some now }) := by
  refine ⟨rfl, ?_, ?_, ?_, ?_⟩
  · unfold add_observation load_experiment
    cases hg : aget store eid with
    | none => rfl
    | some e0 =>
      dsimp only
      have hidq : e0.id = eid := aget_id_of_all store eid e0 hwf hg
      rw [hidq]
      by_cases hk : k = eid
      · subst hk
        rw [aget_aset_self, hg]
        rfl
      · rw [aget_aset_ne _ _ _ _ hk]
  · unfold add_results load_experiment
    cases hg : aget store eid with
    | none => rfl
    | some e0 =>
      dsimp only
      have hidq : e0.id = eid := aget_id_of_all store eid e0 hwf hg
      rw [hidq]
      by_cases hk : k = eid
      · subst hk
        rw [aget_aset_self, hg]
        rfl
      · rw [aget_aset_ne _ _ _ _ hk]
  · intro hc
    unfold complete_experiment load_experiment
    cases hg : aget store eid with
    | none => exact hc
    | some e0 =>
      dsimp only
      have hidq : e0.id = eid := aget_id_of_all store eid e0 hwf hg
      rw [hidq]
      by_cases hk : k = eid
      · subst hk
        rw [aget_aset_self]
        rfl
      · rw [aget_aset_ne _ _ _ _ hk]
        exact hc
  · intro he
    unfold complete_experiment load_experiment
    rw [he]
    dsimp only
    have hidq : e.id = eid := aget_id_of_all store eid e hwf he
    rw [hidq, aget_aset_self]

/-- Claim C9 witness: the theorem evaluated on a store holding one
completed experiment: adding observations or results keeps the status, and
completing keeps it Completed with the new conclusions. -/
theorem c9_witness :
    (new_experiment "T2" none none none none none "t" "20240101_000000").status
      = "In Progress" ∧
    (aget (add_observation c9_store "EXP_9" "obs" none "t2") "EXP_9").map
        Experiment.status = (aget c9_store "EXP_9").map Experiment.status ∧
    (aget (add_results c9_store "EXP_9" [("k1", "v1")] none "t2") "EXP_9").map
        Experiment.status = (aget c9_store "EXP_9").map Experiment.status ∧
    ((aget c9_store "EXP_9").map Experiment.status = some "Completed" →
      (aget (complete_experiment c9_store "EXP_9" "c2" "t2") "EXP_9").map
        Experiment.status = some "Completed") ∧
    (aget c9_store "EXP_9" = some c9_e →
      aget (complete_experiment c9_store "EXP_9" "c2" "t2") "EXP_9"
        = some { c9_e with status := "Completed", conclusions := "c2",
                           completed := some "t2" }) :=
  c9_experiment_status_transitions c9_store "T2" none none none none none
    "t" "20240101_000000" "EXP_9" "obs" none "t2" [("k1", "v1")] none "c2"
    "EXP_9" c9_e rfl
